import Mathlib

/-!
Verification of the retrieval service in `app/main.py`.

Shallow embedding: pure fragments of the Python handlers become Lean
functions; external collaborators (Chroma collection, the
`query_dataset` pipeline, PDF extraction back-ends) become explicit
function or `Except` parameters, where `Except.error` stands for a
raised Python exception.  Strings and lists follow the Python values
one-to-one.
-/

namespace QlexMain

/-- Chunk metadata dictionary as stored in a Chroma collection.
Each field models the optional presence of that key (`none` = key
absent, mirroring `meta.get(k)` returning `None`). -/
structure ChunkMeta where
  source : Option String := none
  file : Option String := none
  filename : Option String := none
  page : Option Nat := none
  part : Option Nat := none
deriving DecidableEq, Repr

/-- A stored chunk: id, text and metadata, as assembled by the
ingestion handlers before `collection.add`. -/
structure Chunk where
  id : String
  text : String
  meta : ChunkMeta
deriving DecidableEq, Repr

/-! ## Ingestion-time chunk building (`process_documents`, `upload_documents`,
`upload_documents_to_dataset`)

All four builders keep a segment only when its text passes the
length-50 filter of the source (`if text and len(text) > 50` for PDF
segments, `if len(chunk) > 50` for txt paragraphs). -/

/-- PDF branch of `upload_documents` (and of
`upload_documents_to_dataset`): each extracted text `text` at position
`j` is kept iff `text` is truthy and `len(text) > 50`, with id
`f"{filename}_{i}_{j}"` and metadata `{"source": filename, "page": j + 1}`. -/
def uploadPdfChunks (filename : String) (i : Nat) (texts : List String) : List Chunk :=
  texts.enum.filterMap fun jt =>
    if jt.2 ≠ "" ∧ jt.2.length > 50 then
      some ⟨filename ++ "_" ++ toString i ++ "_" ++ toString jt.1, jt.2,
            { source := some filename, page := some (jt.1 + 1) }⟩
    else none

/-- Python `[t.strip() for t in text.split(s) on two newlines if t.strip()]`. -/
def txtParagraphs (text : String) : List String :=
  ((text.splitOn "\n\n").map String.trim).filter (· ≠ "")

/-- Txt branch of `upload_documents`: paragraphs with `len(chunk) > 50`
are kept, metadata `{"source": filename, "page": 1}`. -/
def uploadTxtChunks (filename : String) (i : Nat) (text : String) : List Chunk :=
  (txtParagraphs text).enum.filterMap fun jc =>
    if jc.2.length > 50 then
      some ⟨filename ++ "_" ++ toString i ++ "_" ++ toString jc.1, jc.2,
            { source := some filename, page := some 1 }⟩
    else none

/-- PDF branch of `process_documents`: kept iff truthy and longer than
50, metadata `{"source": doc_file, "page": j}`. -/
def processPdfChunks (docFile : String) (i : Nat) (texts : List String) : List Chunk :=
  texts.enum.filterMap fun jt =>
    if jt.2 ≠ "" ∧ jt.2.length > 50 then
      some ⟨docFile ++ "_" ++ toString i ++ "_" ++ toString jt.1, jt.2,
            { source := some docFile, page := some jt.1 }⟩
    else none

/-- Txt branch of `process_documents`: paragraph chunks longer than 50
are kept with `{"source": doc_file, "part": j}`; when the paragraph
split is empty and the whole text is longer than 50, the whole text is
added once with `part := 0`. -/
def processTxtChunks (docFile : String) (i : Nat) (text : String) : List Chunk :=
  let chunks := txtParagraphs text
  let fromChunks := chunks.enum.filterMap fun jc =>
    if jc.2.length > 50 then
      some ⟨docFile ++ "_" ++ toString i ++ "_" ++ toString jc.1, jc.2,
            { source := some docFile, part := some jc.1 }⟩
    else none
  if chunks = [] ∧ text.length > 50 then
    fromChunks ++ [⟨docFile ++ "_" ++ toString i ++ "_0", text,
                    { source := some docFile, part := some 0 }⟩]
  else fromChunks

/-! ## Batched insertion (`for i in range(0, len(documents), 100)`) -/

/-- The batch slicing `documents[i:i+100]` for `i = 0, 100, 200, ...`:
successive slices of size at most 100 whose concatenation is the input. -/
def chromaAddBatches (l : List Chunk) : List (List Chunk) :=
  if h : l = [] then []
  else l.take 100 :: chromaAddBatches (l.drop 100)
termination_by l.length
decreasing_by
  simp only [List.length_drop]
  have : l.length ≠ 0 := fun hl => h (List.length_eq_zero.mp hl)
  omega

/-! ## `robust_extract_text_from_pdf`

The three extraction back-ends are inputs: `m1` (unstructured
partition) yields the element texts, `m2` (PyPDF2) the per-page texts,
`m3` (OCR) the per-image texts; `Except.error` models the back-end
raising.  The function mirrors the accumulation of `all_text` and
`extraction_success` in the source. -/

def robust_extract_text_from_pdf (m1 m2 : Except Unit (List String))
    (ocrAvailable : Bool) (m3 : Except Unit (List String)) : List String :=
  -- METHOD 1: element texts that are truthy are appended
  let t1 : List String := match m1 with
    | .ok ts => ts.filter (· ≠ "")
    | .error _ => []
  let success1 : Bool := !t1.isEmpty
  if success1 ∧ (String.join t1).trim.length > 100 then t1
  else
    -- METHOD 2: pages whose text is truthy and strips truthy
    let pdfText : List String := match m2 with
      | .ok pages => pages.enum.filterMap fun kt =>
          if kt.2 ≠ "" ∧ kt.2.trim ≠ "" then
            some ("Page " ++ toString (kt.1 + 1) ++ ": " ++ kt.2)
          else none
      | .error _ => []
    let success2 : Bool := success1 || !pdfText.isEmpty
    let t2 : List String := if success2 then t1 ++ pdfText else t1
    -- METHOD 3: only when nothing succeeded yet and OCR is available
    let ocrText : List String :=
      if ¬ success2 ∧ ocrAvailable then
        match m3 with
        | .ok imgs => imgs.enum.filterMap fun kt =>
            if kt.2 ≠ "" ∧ kt.2.trim ≠ "" then
              some ("Page " ++ toString (kt.1 + 1) ++ " (OCR): " ++ kt.2)
            else none
        | .error _ => []
      else []
    let success3 : Bool := success2 || !ocrText.isEmpty
    let t3 : List String := t2 ++ ocrText
    if ¬ success3 ∨ t3 = [] then [] else t3

/-! ## The two query paths (`chat` and `add_message`)

The retrieval pipeline `doc_processor.query_dataset` lives in
`app/utils/document_processor.py`, outside the embedded source; both
handlers only call it, so it is an abstract function argument
`queryDataset : Nat → QueryResults` (its `n_results` argument is the
only one the claims are about).  `docCount` is `collection.count()`. -/

/-- The result shape of a query: a dict with singleton-wrapped
documents and metadatas lists. -/
structure QueryResults where
  documents : List (List String)
  metadatas : List (List ChunkMeta)
deriving DecidableEq, Repr

/-- The sentinel result built by `chat` when `doc_count == 0`. -/
def noDocumentsResult : QueryResults where
  documents := [["No documents found in the selected dataset. Please upload documents or select a different dataset."]]
  metadatas := [[{ source := some "System", page := some 0 }]]

/-- What a handler did with the retrieval pipeline: whether
`query_dataset` was invoked, with which `n_results`, and the results
used afterwards. -/
structure RetrievalCall where
  invokedIndex : Bool
  nRequested : Option Nat
  results : QueryResults
deriving DecidableEq, Repr

/-- The `chat` handler, retrieval part: computes
`n_results = min(5, max(1, doc_count))`, short-circuits to the
sentinel when `doc_count == 0`, otherwise queries the pipeline. -/
def chatRetrieve (docCount : Nat) (queryDataset : Nat → QueryResults) : RetrievalCall :=
  let nResults := min 5 (max 1 docCount)
  if docCount = 0 then
    { invokedIndex := false, nRequested := none, results := noDocumentsResult }
  else
    { invokedIndex := true, nRequested := some nResults, results := queryDataset nResults }

/-- The `add_message` handler, retrieval part: queries the pipeline with
`n_results=5` unconditionally (the handler never reads
`collection.count()`, so `docCount` is ignored). -/
def addMessageRetrieve (docCount : Nat) (queryDataset : Nat → QueryResults) : RetrievalCall :=
  { invokedIndex := true, nRequested := some 5, results := queryDataset 5 }

/-- Number of results the caller consumes: length of `documents[0]`. -/
def numReturned (r : QueryResults) : Nat := (r.documents.headD []).length

/-- A pipeline returning no documents, used to instantiate theorems. -/
def emptyPipeline : Nat → QueryResults := fun _ => ⟨[[]], [[]]⟩

/-! ## `get_datasets` document count -/

/-- Reading the source metadata key, filtered through the truthiness
test of `get_datasets`. -/
def truthySource (m : ChunkMeta) : Option String :=
  match m.source with
  | some s => if s = "" then none else some s
  | none => none

/-- Computes the number of distinct truthy `source`
metadata values across the chunks of the collection. -/
def uniqueSourceCount (metas : List ChunkMeta) : Nat :=
  (metas.filterMap truthySource).dedup.length

/-- The statement reading the stored document count in
`get_datasets`: the stored counter when the metadata record has one,
else the recomputed distinct-source count. -/
def reportedDocumentCount (metas : List ChunkMeta) (storedCount : Option Nat) : Nat :=
  storedCount.getD (uniqueSourceCount metas)

/-! ## `delete_document_from_dataset` -/

/-- One collection entry: the chunk id paired with its metadata, as
returned by `collection.get(include=["metadatas"])`. -/
structure CollectionEntry where
  id : String
  meta : ChunkMeta
deriving DecidableEq, Repr

/-- The match test of the handler:
`meta.get("source") == doc_id or meta.get("file") == doc_id or meta.get("filename") == doc_id`. -/
def metaMatchesDoc (docId : String) (m : ChunkMeta) : Bool :=
  m.source == some docId || m.file == some docId || m.filename == some docId

/-- Collects the ids of the entries whose metadata matches. -/
def idsToDelete (entries : List CollectionEntry) (docId : String) : List String :=
  (entries.filter fun e => metaMatchesDoc docId e.meta).map (·.id)

/-- Outcome of the DELETE document endpoint: 404 when no ids matched,
otherwise the collection after `collection.delete(ids=ids_to_delete)`. -/
inductive DeleteDocResult where
  | notFound : DeleteDocResult
  | deleted : List CollectionEntry → DeleteDocResult
deriving DecidableEq, Repr

/-- The handler `delete_document_from_dataset` on an existing dataset. -/
def delete_document_from_dataset (entries : List CollectionEntry) (docId : String) :
    DeleteDocResult :=
  let ids := idsToDelete entries docId
  if ids = [] then .notFound
  else .deleted (entries.filter fun e => !ids.contains e.id)

/-! ## `delete_dataset`

State visible to the handler: the names of Chroma collections and the
keys of the dataset-metadata JSON.  `chromaDeleteRaises` is the
backend oracle: `delete_collection` raising on an existing collection
(it always raises on a missing one).  `defaultNames` models
the list of default dataset names from `app/config`. -/

structure DatasetState where
  collections : List String
  metadataKeys : List String
deriving DecidableEq, Repr

/-- A JSON response: `ok status msg` is `{"success": True, "message": msg}`,
`err status msg` is `{"error": msg}`. -/
inductive ApiResponse where
  | ok : Nat → String → ApiResponse
  | err : Nat → String → ApiResponse
deriving DecidableEq, Repr

/-- Whether the body carries `"success": True`. -/
def ApiResponse.isSuccess : ApiResponse → Bool
  | .ok _ _ => true
  | .err _ _ => false

/-- The HTTP status code of the response. -/
def ApiResponse.status : ApiResponse → Nat
  | .ok s _ => s
  | .err s _ => s

/-- The message or error text of the response. -/
def ApiResponse.msg : ApiResponse → String
  | .ok _ m => m
  | .err _ m => m

/-- The handler `delete_dataset`: rejects default datasets first, then attempts
the Chroma collection removal (treating a missing collection as
removed), then the metadata-record removal (always treated as
succeeded), and answers with the branch the source takes.  The string
messages follow the source minus the quoting around names. -/
def delete_dataset (defaultNames : List String) (st : DatasetState) (name : String)
    (chromaDeleteRaises : Bool) : ApiResponse × DatasetState :=
  if name ∈ defaultNames then (.err 400 "Cannot delete default dataset", st)
  else
    let inChroma := name ∈ st.collections
    let step1 : Bool × DatasetState × String :=
      if inChroma ∧ ¬ chromaDeleteRaises then
        (true, { st with collections := st.collections.erase name },
         "Collection " ++ name ++ " deleted from ChromaDB.")
      else if name ∈ st.collections then
        (false, st, "Failed to delete collection " ++ name ++ " from ChromaDB: backend error")
      else
        (true, st, "Collection " ++ name ++ " not found in ChromaDB (considered successfully removed).")
    let deletedFromChroma := step1.1
    let st1 := step1.2.1
    let chromaMsg := step1.2.2
    let inMeta := name ∈ st1.metadataKeys
    let st2 := if inMeta then { st1 with metadataKeys := st1.metadataKeys.erase name } else st1
    let metaMsg := if inMeta then "Dataset " ++ name ++ " deleted from metadata."
      else "Dataset " ++ name ++ " not found in metadata (considered successfully removed from metadata)."
    if deletedFromChroma then
      (.ok 200 ("Dataset " ++ name ++ (" successfully deleted. Details: " ++ (chromaMsg ++ (" " ++ metaMsg)))), st2)
    else
      (.ok 200 ("Dataset " ++ name ++ (" removed. Status: " ++ (chromaMsg ++ (" " ++ metaMsg)))), st2)

/-! ## Dataset-name sanitization (`create_dataset` and `upload_documents`)

The characters of the Python string become a `List Char`;
`c.isalnum()` is embedded as `Char.isAlphanum` (the ASCII
alphanumerics). -/

/-- Python test keeping a character: isalnum, dash or underscore. -/
def keepChar (c : Char) : Bool := c.isAlphanum || c = '-' || c = '_'

/-- The generator expression
the join over the name replacing every disallowed character by a dash. -/
def sanitizeMap (name : List Char) : List Char :=
  name.map fun c => if keepChar c then c else '-'

/-- Membership in the strip set of `strip(s)` with argument the two
characters dash and underscore. -/
def isStripChar (c : Char) : Bool := c = '-' || c = '_'

/-- Python `s.strip(t)` for the dash-underscore strip set: drop the
stripped characters from both ends. -/
def stripDashUnderscore (l : List Char) : List Char :=
  (((l.dropWhile isStripChar).reverse.dropWhile isStripChar)).reverse

/-- Decimal digit characters of `n`, the characters that
`f"...{int(time.time())}"` interpolates. -/
def natDigits (n : Nat) : List Char :=
  if _h : n < 10 then [Char.ofNat (48 + n)]
  else natDigits (n / 10) ++ [Char.ofNat (48 + n % 10)]
termination_by n
decreasing_by exact Nat.div_lt_self (by omega) (by omega)

/-- The fix-up statement replacing a non-alphanumeric first character
by the letter x. -/
def fixFirst (s : List Char) : List Char :=
  if s.head?.all Char.isAlphanum then s else 'x' :: s.tail

/-- The fix-up statement replacing a non-alphanumeric last character
by the letter x. -/
def fixLast (s : List Char) : List Char :=
  if s.getLast?.all Char.isAlphanum then s else s.dropLast ++ ['x']

/-- The last two fix-up statements of the sanitization. -/
def fixEnds (s : List Char) : List Char := fixLast (fixFirst s)

/-- The truncation `if len(sanitized_name) > 60: sanitized_name[:60]`. -/
def truncate60 (s : List Char) : List Char :=
  if s.length > 60 then s.take 60 else s

/-- The fallback
`if len(sanitized_name) < 3: sanitized_name = f"dataset-{int(time.time())}"`. -/
def padShort (ts : Nat) (s : List Char) : List Char :=
  if s.length < 3 then "dataset-".data ++ natDigits ts else s

/-- The name sanitization shared by `create_dataset` and
`upload_documents`: replace disallowed characters by a dash, strip
dashes and underscores from the ends, truncate to 60, fall back to
`dataset-<timestamp>` when shorter than 3, then force the first and
last characters to be alphanumeric.  `ts` is `int(time.time())`. -/
def sanitize_dataset_name (name : List Char) (ts : Nat) : List Char :=
  fixEnds (padShort ts (truncate60 (stripDashUnderscore (sanitizeMap name))))

/-- A sample chunk used to instantiate universally quantified theorems. -/
def sampleChunk : Chunk := ⟨"sample.pdf_0_0", "sample", { source := some "sample.pdf" }⟩

/-- A 60-character extracted segment, above the length-50 threshold. -/
def longText : String := String.mk (List.replicate 60 'a')

end QlexMain

namespace QlexMain

/-! ## Helper lemmas -/

theorem mem_sanitizeMap {c : Char} {name : List Char} (h : c ∈ sanitizeMap name) :
    keepChar c = true := by
  obtain ⟨a, -, ha⟩ := List.mem_map.mp h
  by_cases hk : keepChar a
  · rw [if_pos hk] at ha
    exact ha ▸ hk
  · rw [if_neg hk] at ha
    rw [← ha]
    decide

theorem mem_stripDashUnderscore {c : Char} {l : List Char} (h : c ∈ stripDashUnderscore l) :
    c ∈ l := by
  unfold stripDashUnderscore at h
  have h1 := List.mem_reverse.mp h
  have h2 := (List.dropWhile_sublist isStripChar).subset h1
  have h3 := List.mem_reverse.mp h2
  exact (List.dropWhile_sublist isStripChar).subset h3

theorem natDigits_ne_nil (n : Nat) : natDigits n ≠ [] := by
  rw [natDigits]
  split <;> simp

theorem natDigits_digit {n : Nat} {c : Char} (h : c ∈ natDigits n) : c.isDigit = true := by
  induction n using Nat.strong_induction_on with
  | _ n ih =>
    rw [natDigits] at h
    split at h
    · rename_i hlt
      simp only [List.mem_singleton] at h
      subst h
      interval_cases n <;> decide
    · rename_i hge
      rcases List.mem_append.mp h with h | h
      · exact ih (n / 10) (Nat.div_lt_self (by omega) (by omega)) h
      · simp only [List.mem_singleton] at h
        subst h
        have hm : n % 10 < 10 := Nat.mod_lt _ (by omega)
        interval_cases hmod : n % 10 <;> simp_all

theorem mem_of_head?_some {c : α} {l : List α} (h : l.head? = some c) : c ∈ l := by
  cases l with
  | nil => simp at h
  | cons a t =>
    simp only [List.head?_cons, Option.some.injEq] at h
    exact h ▸ List.mem_cons_self a t

/-- The `fixEnds` step preserves the charset and the length of a
string of allowed characters of length 3 to 60, and makes the first
and last characters alphanumeric. -/
theorem fixFirst_invariant (s : List Char)
    (P1 : ∀ c ∈ s, keepChar c = true) (hne : s ≠ []) :
    (∀ c ∈ fixFirst s, keepChar c = true) ∧ (fixFirst s).length = s.length ∧
    (∃ c, (fixFirst s).head? = some c ∧ c.isAlphanum = true) := by
  unfold fixFirst
  split
  · rename_i hcond
    refine ⟨P1, rfl, ?_⟩
    cases hh : s.head? with
    | none => exact absurd (List.head?_eq_none_iff.mp hh) hne
    | some c =>
      rw [hh] at hcond
      exact ⟨c, rfl, by simpa using hcond⟩
  · refine ⟨?_, ?_, ⟨'x', rfl, by decide⟩⟩
    · intro c hc
      rcases List.mem_cons.mp hc with rfl | hc
      · decide
      · exact P1 c ((List.tail_sublist s).subset hc)
    · simp only [List.length_cons, List.length_tail]
      have : s.length ≠ 0 := fun h => hne (List.length_eq_zero.mp h)
      omega

theorem fixLast_invariant (s : List Char)
    (P1 : ∀ c ∈ s, keepChar c = true) (hlo : 2 ≤ s.length)
    (Phead : ∃ c, s.head? = some c ∧ c.isAlphanum = true) :
    (∀ c ∈ fixLast s, keepChar c = true) ∧ (fixLast s).length = s.length ∧
    (∃ c, (fixLast s).head? = some c ∧ c.isAlphanum = true) ∧
    (∃ c, (fixLast s).getLast? = some c ∧ c.isAlphanum = true) := by
  have hne : s ≠ [] := by
    intro h; subst h; simp at hlo
  unfold fixLast
  split
  · rename_i hcond
    refine ⟨P1, rfl, Phead, ?_⟩
    cases hl : s.getLast? with
    | none => exact absurd (List.getLast?_eq_none_iff.mp hl) hne
    | some c =>
      rw [hl] at hcond
      exact ⟨c, rfl, by simpa using hcond⟩
  · constructor
    · intro c hc
      rcases List.mem_append.mp hc with hc | hc
      · exact P1 c ((List.dropLast_sublist s).subset hc)
      · simp only [List.mem_singleton] at hc
        subst hc; decide
    refine ⟨?_, ?_, ⟨'x', List.getLast?_concat _, by decide⟩⟩
    · simp only [List.length_append, List.length_dropLast, List.length_singleton]
      omega
    · obtain ⟨c, hc, hca⟩ := Phead
      refine ⟨c, ?_, hca⟩
      rw [List.head?_append, List.head?_dropLast]
      rw [if_pos (by omega : 1 < s.length), hc]
      rfl

/-- The `fixEnds` step preserves the charset and the length of a
string of allowed characters, and makes the first and last characters
alphanumeric. -/
theorem fixEnds_invariant (s : List Char)
    (P1 : ∀ c ∈ s, keepChar c = true) (hlo : 2 ≤ s.length) :
    (∀ c ∈ fixEnds s, keepChar c = true) ∧ (fixEnds s).length = s.length ∧
    (∃ c, (fixEnds s).head? = some c ∧ c.isAlphanum = true) ∧
    (∃ c, (fixEnds s).getLast? = some c ∧ c.isAlphanum = true) := by
  have hne : s ≠ [] := by
    intro h; subst h; simp at hlo
  obtain ⟨Q1, Qlen, Qhead⟩ := fixFirst_invariant s P1 hne
  have hlo2 : 2 ≤ (fixFirst s).length := by omega
  obtain ⟨R1, Rlen, Rhead, Rlast⟩ := fixLast_invariant (fixFirst s) Q1 hlo2 Qhead
  exact ⟨R1, by rw [fixEnds, Rlen, Qlen], Rhead, Rlast⟩

/-! ## C8: batched insertion -/

/-- C8: chunks are inserted in consecutive batches of size at most
100, and the concatenation of the batches in order is the full chunk
list. -/
theorem chromaAddBatches_spec (l : List Chunk) :
    (chromaAddBatches l).flatten = l ∧ ∀ b ∈ chromaAddBatches l, b.length ≤ 100 := by
  generalize hn : l.length = n
  induction n using Nat.strong_induction_on generalizing l with
  | _ n ih =>
    rw [chromaAddBatches]
    split
    · rename_i h
      subst h
      simp
    · rename_i h
      have hlen : (l.drop 100).length < n := by
        rw [List.length_drop]
        have : l.length ≠ 0 := fun hl => h (List.length_eq_zero.mp hl)
        omega
      obtain ⟨ihj, ihb⟩ := ih _ hlen (l.drop 100) rfl
      constructor
      · rw [List.flatten_cons, ihj]
        exact List.take_append_drop 100 l
      · intro b hb
        rcases List.mem_cons.mp hb with rfl | hb
        · rw [List.length_take]
          omega
        · exact ihb b hb

/-- Witness for C8 at a one-chunk list. -/
theorem chromaAddBatches_spec_witness :
    [sampleChunk] ∈ chromaAddBatches [sampleChunk] ∧
    [sampleChunk].length ≤ 100 ∧ (chromaAddBatches [sampleChunk]).flatten = [sampleChunk] :=
  ⟨by rw [chromaAddBatches]; simp,
   (chromaAddBatches_spec [sampleChunk]).2 [sampleChunk] (by rw [chromaAddBatches]; simp),
   (chromaAddBatches_spec [sampleChunk]).1⟩

/-! ## C5: the length-50 ingestion filter -/

/-- C5: every chunk assembled by any of the four ingestion builders
has text strictly longer than 50 characters; a segment of length at
most 50 is discarded and never inserted. -/
theorem ingested_chunks_longer_than_fifty
    (f : String) (i : Nat) (texts : List String) (text : String) (c : Chunk)
    (h : c ∈ uploadPdfChunks f i texts ∨ c ∈ uploadTxtChunks f i text ∨
         c ∈ processPdfChunks f i texts ∨ c ∈ processTxtChunks f i text) :
    c.text.length > 50 := by
  have hpdf : ∀ (jt : Nat × String) (m : ChunkMeta) (s : String),
      (if jt.2 ≠ "" ∧ jt.2.length > 50 then
        some (⟨s, jt.2, m⟩ : Chunk) else none) = some c → c.text.length > 50 := by
    intro jt m s hjt
    split at hjt
    · rename_i hc
      cases hjt
      exact hc.2
    · exact absurd hjt (by simp)
  have htxt : ∀ (jt : Nat × String) (m : ChunkMeta) (s : String),
      (if jt.2.length > 50 then
        some (⟨s, jt.2, m⟩ : Chunk) else none) = some c → c.text.length > 50 := by
    intro jt m s hjt
    split at hjt
    · rename_i hc
      cases hjt
      exact hc
    · exact absurd hjt (by simp)
  rcases h with h | h | h | h
  · obtain ⟨jt, -, hjt⟩ := List.mem_filterMap.mp h
    exact hpdf jt _ _ hjt
  · obtain ⟨jt, -, hjt⟩ := List.mem_filterMap.mp h
    exact htxt jt _ _ hjt
  · obtain ⟨jt, -, hjt⟩ := List.mem_filterMap.mp h
    exact hpdf jt _ _ hjt
  · simp only [processTxtChunks] at h
    split at h
    · rename_i hcond
      rcases List.mem_append.mp h with h | h
      · obtain ⟨jt, -, hjt⟩ := List.mem_filterMap.mp h
        exact htxt jt _ _ hjt
      · simp only [List.mem_singleton] at h
        subst h
        exact hcond.2
    · obtain ⟨jt, -, hjt⟩ := List.mem_filterMap.mp h
      exact htxt jt _ _ hjt

/-- Witness for C5: a 60-character PDF segment is ingested and is
longer than 50. -/
theorem ingested_chunks_longer_than_fifty_witness :
    longText.length > 50 :=
  ingested_chunks_longer_than_fifty "a.pdf" 0 [longText] ""
    ⟨"a.pdf_0_0", longText, { source := some "a.pdf", page := some 1 }⟩
    (Or.inl (by decide))

/-! ## C9: `robust_extract_text_from_pdf` on total extraction failure -/

/-- C9: when each extraction method either raises (caught internally)
or extracts no truthy text, the function returns the empty list; the
embedding is a total function, so no failure escapes it. -/
theorem robust_extract_all_methods_fail
    (m1 m2 m3 : Except Unit (List String)) (ocr : Bool)
    (h1 : ∀ ts, m1 = .ok ts → ∀ t ∈ ts, t = "")
    (h2 : ∀ ps, m2 = .ok ps → ∀ t ∈ ps, t.trim = "")
    (h3 : ∀ gs, m3 = .ok gs → ∀ t ∈ gs, t.trim = "") :
    robust_extract_text_from_pdf m1 m2 ocr m3 = [] := by
  have ht1 : (match m1 with
      | .ok ts => ts.filter (· ≠ "")
      | .error _ => ([] : List String)) = [] := by
    cases m1 with
    | error e => rfl
    | ok ts =>
      simp only [List.filter_eq_nil_iff]
      intro a ha
      simp [h1 ts rfl a ha]
  have ht2 : (match m2 with
      | .ok pages => pages.enum.filterMap fun kt =>
          if kt.2 ≠ "" ∧ kt.2.trim ≠ "" then
            some ("Page " ++ toString (kt.1 + 1) ++ ": " ++ kt.2)
          else none
      | .error _ => ([] : List String)) = [] := by
    cases m2 with
    | error e => rfl
    | ok ps =>
      simp only [List.filterMap_eq_nil_iff]
      intro kt hkt
      have hmem : kt.2 ∈ ps := by
        have := List.mem_enum_iff_getElem?.mp hkt
        exact List.getElem?_mem this
      simp [h2 ps rfl kt.2 hmem]
  have ht3 : (match m3 with
      | .ok imgs => imgs.enum.filterMap fun kt =>
          if kt.2 ≠ "" ∧ kt.2.trim ≠ "" then
            some ("Page " ++ toString (kt.1 + 1) ++ " (OCR): " ++ kt.2)
          else none
      | .error _ => ([] : List String)) = [] := by
    cases m3 with
    | error e => rfl
    | ok gs =>
      simp only [List.filterMap_eq_nil_iff]
      intro kt hkt
      have hmem : kt.2 ∈ gs := by
        have := List.mem_enum_iff_getElem?.mp hkt
        exact List.getElem?_mem this
      simp [h3 gs rfl kt.2 hmem]
  unfold robust_extract_text_from_pdf
  rw [ht1, ht2, ht3]
  simp

/-- Witness for C9: method 1 extracts only empty texts, methods 2 and
3 raise; the result is empty. -/
theorem robust_extract_all_methods_fail_witness :
    robust_extract_text_from_pdf (.ok ["", ""]) (.error ()) true (.error ()) = [] :=
  robust_extract_all_methods_fail (.ok ["", ""]) (.error ()) (.error ()) true
    (fun ts hts => by cases hts; decide)
    (fun ps hps => by cases hps)
    (fun gs hgs => by cases hgs)

/-! ## C1: empty-dataset short-circuit -/

/-- Counterexample for C1: on the `add_message` path a zero-count
dataset still invokes `query_dataset`, and the result is not the
sentinel, so the short-circuit does not hold on every query path. -/
theorem addMessage_empty_dataset_invokes_index :
    (addMessageRetrieve 0 emptyPipeline).invokedIndex = true ∧
    (addMessageRetrieve 0 emptyPipeline).results ≠ noDocumentsResult := by
  refine ⟨rfl, ?_⟩
  intro h
  have := congrArg QueryResults.documents h
  simp [addMessageRetrieve, emptyPipeline, noDocumentsResult] at this

/-- C1 amended: only the `/api/chat` handler detects the zero count
and short-circuits to the sentinel without invoking the pipeline; the
`add_message` handler performs no such check and always invokes the
pipeline with `n_results=5`. -/
theorem empty_dataset_short_circuit_chat_only (q : Nat → QueryResults) :
    chatRetrieve 0 q = ⟨false, none, noDocumentsResult⟩ ∧
    addMessageRetrieve 0 q = ⟨true, some 5, q 5⟩ :=
  ⟨rfl, rfl⟩

/-! ## C2: the requested-result bound -/

/-- Counterexample for C2: the `add_message` path requests 5 results
from a dataset whose chunk count is 2, so the bound by the chunk count
is not applied on every query path. -/
theorem addMessage_requests_five_on_small_dataset :
    (addMessageRetrieve 2 emptyPipeline).nRequested = some 5 ∧ ¬ (5 ≤ 2) :=
  ⟨rfl, by decide⟩

/-- C2 amended: on the `/api/chat` path, for a non-empty dataset the
requested `n_results` is between 1 and 5 and never exceeds the chunk
count, and (under the pipeline contract of returning at most
`n_results` items) the result list used by the caller has length at
most `n_results`; the `add_message` path always requests 5. -/
theorem chat_n_results_bounds (docCount : Nat) (q : Nat → QueryResults)
    (hq : ∀ k, numReturned (q k) ≤ k) (hpos : 1 ≤ docCount) :
    ∃ n, (chatRetrieve docCount q).nRequested = some n ∧
      1 ≤ n ∧ n ≤ 5 ∧ n ≤ docCount ∧
      numReturned (chatRetrieve docCount q).results ≤ n ∧
      (addMessageRetrieve docCount q).nRequested = some 5 := by
  have h0 : ¬ docCount = 0 := by omega
  refine ⟨min 5 (max 1 docCount), ?_, by omega, by omega, by omega, ?_, rfl⟩
  · simp [chatRetrieve, h0]
  · simp only [chatRetrieve, if_neg h0]
    exact hq _

/-- Witness for C2 at chunk count 3 and a pipeline returning nothing. -/
theorem chat_n_results_bounds_witness :
    (∀ k, numReturned (emptyPipeline k) ≤ k) ∧ 1 ≤ 3 ∧
    ∃ n, (chatRetrieve 3 emptyPipeline).nRequested = some n ∧
      1 ≤ n ∧ n ≤ 5 ∧ n ≤ 3 ∧
      numReturned (chatRetrieve 3 emptyPipeline).results ≤ n ∧
      (addMessageRetrieve 3 emptyPipeline).nRequested = some 5 :=
  ⟨fun k => by simp [numReturned, emptyPipeline], by decide,
   chat_n_results_bounds 3 emptyPipeline (fun k => by simp [numReturned, emptyPipeline])
     (by decide)⟩

/-! ## C3: the reported document count -/

/-- Counterexample for C3: a dataset whose metadata record stores
`document_count = 7` while its chunks have exactly one distinct source
is reported with count 7, so the stored counter, not the recomputed
scan, is the source of truth. -/
theorem reported_count_prefers_stored_counter :
    reportedDocumentCount [{ source := some "a.pdf" }] (some 7) = 7 ∧
    uniqueSourceCount [{ source := some "a.pdf" }] = 1 ∧ (7 : Nat) ≠ 1 := by
  refine ⟨rfl, ?_, by decide⟩
  decide

/-- C3 amended: `get_datasets` reports the stored metadata counter
whenever the record has one, and falls back to the distinct-source
scan only when no counter is stored. -/
theorem reported_document_count_spec (metas : List ChunkMeta) (n : Nat) :
    reportedDocumentCount metas none = uniqueSourceCount metas ∧
    reportedDocumentCount metas (some n) = n :=
  ⟨rfl, rfl⟩

/-! ## C7: deleting a document from a dataset -/

/-- A collection whose single chunk names the document only under the
`file` metadata key. -/
def fileOnlyEntry : CollectionEntry := ⟨"id1", { file := some "doc1" }⟩

/-- Counterexample for C7: zero chunks have metadata `source` matching
`doc1`, yet the endpoint does not answer 404 because it also matches
the `file` and `filename` keys. -/
theorem delete_document_matches_beyond_source :
    ([fileOnlyEntry].filter fun e => e.meta.source == some "doc1") = [] ∧
    delete_document_from_dataset [fileOnlyEntry] "doc1" ≠ .notFound := by
  refine ⟨by decide, ?_⟩
  intro h
  rw [show delete_document_from_dataset [fileOnlyEntry] "doc1" =
    .deleted [] from by decide] at h
  cases h

/-- C7 amended: the endpoint answers 404 exactly when zero chunks
match under any of the `source`, `file` or `filename` metadata keys;
otherwise every matching chunk — in particular every chunk whose
`source` equals the document id — is removed from the collection. -/
theorem delete_document_spec (entries : List CollectionEntry) (docId : String) :
    (delete_document_from_dataset entries docId = .notFound ↔
      ∀ e ∈ entries, metaMatchesDoc docId e.meta = false) ∧
    (∀ rest, delete_document_from_dataset entries docId = .deleted rest →
      ∀ e ∈ entries, e.meta.source = some docId → e ∉ rest) := by
  have hids : idsToDelete entries docId = [] ↔
      ∀ e ∈ entries, metaMatchesDoc docId e.meta = false := by
    unfold idsToDelete
    rw [List.map_eq_nil_iff, List.filter_eq_nil_iff]
    constructor
    · intro h e he
      simpa using h e he
    · intro h e he
      simp [h e he]
  constructor
  · constructor
    · intro h
      by_cases hi : idsToDelete entries docId = []
      · exact hids.mp hi
      · rw [delete_document_from_dataset, if_neg hi] at h
        cases h
    · intro h
      rw [delete_document_from_dataset, if_pos (hids.mpr h)]
  · intro rest hres e he hsrc
    by_cases hi : idsToDelete entries docId = []
    · rw [delete_document_from_dataset, if_pos hi] at hres
      cases hres
    · rw [delete_document_from_dataset, if_neg hi] at hres
      have hmatch : metaMatchesDoc docId e.meta = true := by
        simp [metaMatchesDoc, hsrc]
      have hid : e.id ∈ idsToDelete entries docId :=
        List.mem_map.mpr ⟨e, List.mem_filter.mpr ⟨he, hmatch⟩, rfl⟩
      cases hres
      intro hmem
      have hkeep := (List.mem_filter.mp hmem).2
      rw [Bool.not_eq_eq_eq_not, Bool.not_true] at hkeep
      exact absurd (List.elem_iff.mpr hid) (by simpa using hkeep)

/-- Two single-source entries used to instantiate C7. -/
def sourceEntryA : CollectionEntry := ⟨"id1", { source := some "d" }⟩

/-- Second entry for the C7 witness, with a different source. -/
def sourceEntryB : CollectionEntry := ⟨"id2", { source := some "e" }⟩

/-- Witness for C7: deleting document `d` removes the matching entry. -/
theorem delete_document_spec_witness :
    delete_document_from_dataset [sourceEntryA, sourceEntryB] "d" = .deleted [sourceEntryB] ∧
    sourceEntryA ∉ [sourceEntryB] :=
  ⟨by decide,
   (delete_document_spec [sourceEntryA, sourceEntryB] "d").2 [sourceEntryB] (by decide)
     sourceEntryA (by decide) (by decide)⟩

/-! ## C10: deleting a default dataset -/

/-- C10: a deletion request naming a default dataset is rejected with
a 400 error response before any state change: the collections and the
metadata records are returned unchanged. -/
theorem delete_default_dataset_rejected (defaults : List String) (st : DatasetState)
    (name : String) (chromaDeleteRaises : Bool) (h : name ∈ defaults) :
    delete_dataset defaults st name chromaDeleteRaises =
      (.err 400 "Cannot delete default dataset", st) := by
  rw [delete_dataset, if_pos h]

/-- Witness for C10 on the default dataset list of the deployment. -/
theorem delete_default_dataset_rejected_witness :
    "EU-Sanctions" ∈ ["EU-Sanctions", "US-Sanctions"] ∧
    delete_dataset ["EU-Sanctions", "US-Sanctions"] ⟨["EU-Sanctions"], ["EU-Sanctions"]⟩
      "EU-Sanctions" false =
      (.err 400 "Cannot delete default dataset", ⟨["EU-Sanctions"], ["EU-Sanctions"]⟩) :=
  ⟨by decide,
   delete_default_dataset_rejected ["EU-Sanctions", "US-Sanctions"]
     ⟨["EU-Sanctions"], ["EU-Sanctions"]⟩ "EU-Sanctions" false (by decide)⟩

/-! ## C4: partial failure of dataset deletion -/

/-- Counterexample for C4: when the Chroma collection removal fails
while the metadata removal succeeds, the response still carries
`"success": True` with HTTP 200 — the same success flag and status as
a full success, so the partial failure is not surfaced distinctly from
full success in the machine-readable part of the response. -/
theorem partial_failure_reported_as_success :
    (delete_dataset [] ⟨["ds1"], ["ds1"]⟩ "ds1" true).1.isSuccess = true ∧
    (delete_dataset [] ⟨["ds1"], ["ds1"]⟩ "ds1" true).1.status = 200 ∧
    (delete_dataset [] ⟨["ds1"], ["ds1"]⟩ "ds1" false).1.isSuccess = true ∧
    (delete_dataset [] ⟨["ds1"], ["ds1"]⟩ "ds1" false).1.status = 200 := by
  refine ⟨?_, ?_, ?_, ?_⟩ <;> decide

/-- C4 amended: when exactly one of the two removals succeeds (the
Chroma removal fails, the metadata removal succeeds — the converse
never arises because the handler treats the metadata removal as always
succeeding), the response has the same success flag (true) and status
(200) as a full success, and only the free-text message distinguishes
the two cases. -/
theorem delete_dataset_partial_failure_message_only
    (defaults : List String) (st : DatasetState) (name : String)
    (hnd : name ∉ defaults) (hc : name ∈ st.collections) (hm : name ∈ st.metadataKeys) :
    (delete_dataset defaults st name true).1.isSuccess = true ∧
    (delete_dataset defaults st name true).1.status = 200 ∧
    (delete_dataset defaults st name false).1.isSuccess = true ∧
    (delete_dataset defaults st name false).1.status = 200 ∧
    (delete_dataset defaults st name true).1.msg ≠
      (delete_dataset defaults st name false).1.msg := by
  have hfail : (delete_dataset defaults st name true).1 =
      .ok 200 ("Dataset " ++ name ++ (" removed. Status: " ++
        (("Failed to delete collection " ++ name ++ " from ChromaDB: backend error") ++
         (" " ++ ("Dataset " ++ name ++ " deleted from metadata."))))) := by
    rw [delete_dataset, if_neg hnd]
    simp [hc, hm]
  have hok : (delete_dataset defaults st name false).1 =
      .ok 200 ("Dataset " ++ name ++ (" successfully deleted. Details: " ++
        (("Collection " ++ name ++ " deleted from ChromaDB.") ++
         (" " ++ ("Dataset " ++ name ++ " deleted from metadata."))))) := by
    rw [delete_dataset, if_neg hnd]
    simp [hc, hm]
  refine ⟨by rw [hfail]; rfl, by rw [hfail]; rfl, by rw [hok]; rfl, by rw [hok]; rfl, ?_⟩
  rw [hfail, hok]
  intro hmsgeq
  have hlen := congrArg String.length hmsgeq
  simp only [ApiResponse.msg, String.length_append] at hlen
  have e1 : ("Dataset " : String).length = 8 := rfl
  have e2 : (" removed. Status: " : String).length = 18 := rfl
  have e3 : ("Failed to delete collection " : String).length = 28 := rfl
  have e4 : (" from ChromaDB: backend error" : String).length = 29 := rfl
  have e5 : (" " : String).length = 1 := rfl
  have e6 : (" deleted from metadata." : String).length = 23 := rfl
  have e7 : (" successfully deleted. Details: " : String).length = 32 := rfl
  have e8 : ("Collection " : String).length = 11 := rfl
  have e9 : (" deleted from ChromaDB." : String).length = 23 := rfl
  rw [e1, e2, e3, e4, e5, e6, e7, e8, e9] at hlen
  omega

/-- Witness for C4 on a one-dataset state. -/
theorem delete_dataset_partial_failure_message_only_witness :
    ("ds1" ∉ ([] : List String)) ∧ "ds1" ∈ ["ds1"] ∧
    ((delete_dataset [] ⟨["ds1"], ["ds1"]⟩ "ds1" true).1.isSuccess = true ∧
     (delete_dataset [] ⟨["ds1"], ["ds1"]⟩ "ds1" true).1.status = 200 ∧
     (delete_dataset [] ⟨["ds1"], ["ds1"]⟩ "ds1" false).1.isSuccess = true ∧
     (delete_dataset [] ⟨["ds1"], ["ds1"]⟩ "ds1" false).1.status = 200 ∧
     (delete_dataset [] ⟨["ds1"], ["ds1"]⟩ "ds1" true).1.msg ≠
       (delete_dataset [] ⟨["ds1"], ["ds1"]⟩ "ds1" false).1.msg) :=
  ⟨by decide, by decide,
   delete_dataset_partial_failure_message_only [] ⟨["ds1"], ["ds1"]⟩ "ds1"
     (by decide) (by decide) (by decide)⟩

/-! ## C6: the sanitized dataset name invariant -/

/-- C6: for any input name, the sanitized dataset name consists only
of alphanumerics, dash and underscore, has length between 3 and 60,
and starts and ends with an alphanumeric character.  The hypothesis
bounds the decimal width of the timestamp so that the
`dataset-<timestamp>` fallback itself fits in 60 characters (any real
`time.time()` value has 10 digits). -/
theorem sanitize_dataset_name_invariant (name : List Char) (ts : Nat)
    (hts : (natDigits ts).length ≤ 52) :
    (∀ c ∈ sanitize_dataset_name name ts, c.isAlphanum = true ∨ c = '-' ∨ c = '_') ∧
    3 ≤ (sanitize_dataset_name name ts).length ∧
    (sanitize_dataset_name name ts).length ≤ 60 ∧
    (∃ c, (sanitize_dataset_name name ts).head? = some c ∧ c.isAlphanum = true) ∧
    (∃ c, (sanitize_dataset_name name ts).getLast? = some c ∧ c.isAlphanum = true) := by
  have hdig1 : 0 < (natDigits ts).length := List.length_pos.mpr (natDigits_ne_nil ts)
  unfold sanitize_dataset_name
  set s1 := stripDashUnderscore (sanitizeMap name) with hs1
  have hm1 : ∀ c ∈ s1, keepChar c = true :=
    fun c hc => mem_sanitizeMap (mem_stripDashUnderscore hc)
  set s2 := truncate60 s1 with hs2
  have hm2 : ∀ c ∈ s2, keepChar c = true := by
    rw [hs2]; unfold truncate60; split
    · exact fun c hc => hm1 c ((List.take_sublist _ _).subset hc)
    · exact hm1
  have hl2 : s2.length ≤ 60 := by
    rw [hs2]; unfold truncate60; split
    · rw [List.length_take]; omega
    · rename_i h; omega
  set s3 := padShort ts s2 with hs3
  have hm3 : ∀ c ∈ s3, keepChar c = true := by
    rw [hs3]; unfold padShort; split
    · intro c hc
      have hds : ∀ c ∈ ("dataset-".data), keepChar c = true := by decide
      rcases List.mem_append.mp hc with hc | hc
      · exact hds c hc
      · have hd := natDigits_digit hc
        simp [keepChar, Char.isAlphanum, hd]
    · exact hm2
  have h8 : ("dataset-".data).length = 8 := rfl
  have hl3lo : 3 ≤ s3.length := by
    rw [hs3]; unfold padShort; split
    · simp only [List.length_append, List.length_cons, List.length_nil]
      omega
    · rename_i h; omega
  have hl3hi : s3.length ≤ 60 := by
    rw [hs3]; unfold padShort; split
    · simp only [List.length_append, List.length_cons, List.length_nil]
      omega
    · exact hl2
  obtain ⟨R1, Rlen, Rhead, Rlast⟩ := fixEnds_invariant s3 hm3 (by omega)
  refine ⟨?_, by omega, by omega, Rhead, Rlast⟩
  intro c hc
  have hk := R1 c hc
  simpa [keepChar, or_assoc] using hk

/-- Witness for C6: the two-character input falls back to
`dataset-5`, which satisfies the invariant. -/
theorem sanitize_dataset_name_invariant_witness :
    (natDigits 5).length ≤ 52 ∧
    ((∀ c ∈ sanitize_dataset_name "ab".data 5, c.isAlphanum = true ∨ c = '-' ∨ c = '_') ∧
     3 ≤ (sanitize_dataset_name "ab".data 5).length ∧
     (sanitize_dataset_name "ab".data 5).length ≤ 60 ∧
     (∃ c, (sanitize_dataset_name "ab".data 5).head? = some c ∧ c.isAlphanum = true) ∧
     (∃ c, (sanitize_dataset_name "ab".data 5).getLast? = some c ∧ c.isAlphanum = true)) := by
  have h5 : (natDigits 5).length ≤ 52 := by
    rw [natDigits]
    norm_num
  exact ⟨h5, sanitize_dataset_name_invariant "ab".data 5 h5⟩

end QlexMain
